import Mathlib

/-!
Verification of the Agenta travel-planner repository.

The Python sources are shallowly embedded: Python `dict`s over string keys
become association lists (first-binding lookup, in-place value replacement),
Python strings become Lean `String`s, `str.strip`/`str.lower`/substring
tests are re-implemented below with Python's semantics, and each function
under verification (`update_trip_details`, `has_required_details`, the
generate-trigger check of Agenta.py, `_parse_duration`, the regex-based
JSON extractors, the slot-merge of `DetailsAgent._extract_details`,
`_determine_next_question`, and the destination-research caches) is
translated line by line.  Calls to the OpenAI completion endpoint are
abstracted as function parameters (`research`, `decode`, ...): the theorems
are about the surrounding control flow and data handling, which is exactly
what the specification's claims describe.
-/

namespace Agenta


/-! ## Python string primitives -/

/-- The whitespace characters recognised by Python's `str.strip()`
(space, tab, newline, carriage return, vertical tab, form feed). -/
def pySpace (c : Char) : Bool :=
  c == ' ' || c == '\t' || c == '\n' || c == '\r' ||
  c == Char.ofNat 11 || c == Char.ofNat 12

/-- Python `str.strip()` on a character list: drop whitespace from both ends. -/
def stripList (cs : List Char) : List Char :=
  ((cs.dropWhile pySpace).reverse.dropWhile pySpace).reverse

/-- Python `str.strip()`. -/
def pyStrip (s : String) : String := String.mk (stripList s.data)

/-- ASCII lowercase of one character. -/
def asciiLower (c : Char) : Char :=
  if 'A' ≤ c && c ≤ 'Z' then Char.ofNat (c.toNat + 32) else c

/-- Python `str.lower()` (the sources only feed it ASCII). -/
def pyLower (s : String) : String := String.mk (s.data.map asciiLower)

/-- Test whether `needle` is an initial segment of `hay`. -/
def leadsWith : List Char → List Char → Bool
  | [], _ => true
  | _ :: _, [] => false
  | a :: as, b :: bs => a == b && leadsWith as bs

/-- Test whether `needle` occurs contiguously inside `hay`
(Python's `needle in hay` on strings). -/
def subOf (needle : List Char) : List Char → Bool
  | [] => needle.isEmpty
  | b :: bs => leadsWith needle (b :: bs) || subOf needle bs

/-- Python `needle in hay` for strings. -/
def containsStr (hay needle : String) : Bool := subOf needle.data hay.data

/-! ## Python dicts as association lists

Lookup returns the first binding; assignment replaces the first binding in
place and appends when the key is absent — exactly a `dict` whose bindings
are listed in insertion order. -/

/-- Lookup `m[x]` as an `Option` (`dict.get(x)`). -/
def mget {α : Type} : List (String × α) → String → Option α
  | [], _ => none
  | (k, v) :: t, x => if k == x then some v else mget t x

/-- Python `dict.get(x, d)`. -/
def mgetD {α : Type} (m : List (String × α)) (x : String) (d : α) : α :=
  (mget m x).getD d

/-- Python `x in dict`. -/
def mhas {α : Type} (m : List (String × α)) (x : String) : Bool :=
  (mget m x).isSome

/-- Python `dict[x] = v`. -/
def mset {α : Type} : List (String × α) → String → α → List (String × α)
  | [], x, v => [(x, v)]
  | (k, w) :: t, x, v => if k == x then (k, v) :: t else (k, w) :: mset t x v

/-- The key sequence of a dict. -/
def mkeys {α : Type} (m : List (String × α)) : List String := m.map Prod.fst

/-! ## Trip Record completeness (state_manager.py / Agenta.py) -/

/-- The required fields of the Trip Record (state_manager.py lines 82-88,
Agenta.py lines 91-97). -/
def requiredFields : List String :=
  ["Destination", "Duration", "Budget", "Dietary Preferences", "Mobility Concerns"]

/-- Embedding of `has_required_details` (state_manager.py lines 80-89):
`all(trip_details.get(field, "").strip() for field in required_fields)` —
string truthiness is non-emptiness. -/
def has_required_details (td : List (String × String)) : Bool :=
  requiredFields.all fun f => pyStrip (mgetD td f "") != ""

/-! ## Itinerary-generation trigger (Agenta.py) -/

/-- The trigger phrase list of the dialogue loop (Agenta.py line 512). -/
def generate_triggers : List String :=
  ["generate itinerary", "generate my itinerary", "create itinerary",
   "make itinerary", "plan my trip"]

/-- Agenta.py line 513:
`any(trigger in user_input.lower() for trigger in generate_triggers)`. -/
def shouldGenerate (user_input : String) : Bool :=
  generate_triggers.any fun t => containsStr (pyLower user_input) t

/-- The READY → ITINERARY_GENERATED gate (Agenta.py lines 515-516): the
itinerary is generated when all required details are present, a trigger
phrase occurs in the lowercased input, and no itinerary was generated yet. -/
def readyTransitionFires (td : List (String × String)) (itinerary_generated : Bool)
    (user_input : String) : Bool :=
  has_required_details td && shouldGenerate user_input && !itinerary_generated

/-! ## Duration parsing (agents/itinerary_agent.py) -/

/-- The first maximal digit run of a character list
(`re.findall(r'\d+', s)[0]`). -/
def firstDigitRun : List Char → Option (List Char)
  | [] => none
  | c :: t => if c.isDigit then some (c :: t.takeWhile Char.isDigit) else firstDigitRun t

/-- Numeric value of a digit run (`int(...)`). -/
def digitsVal (ds : List Char) : Nat :=
  ds.foldl (fun n c => 10 * n + (c.toNat - 48)) 0

/-- The first integer literal of a string, if any. -/
def firstIntLit (s : String) : Option Nat := (firstDigitRun s.data).map digitsVal

/-- Embedding of `ItineraryAgent._parse_duration` (itinerary_agent.py lines 70-100),
translated branch by branch.  Inside Python's `if "week" in ...` block each
inner `if` returns; when none fires, control falls through to the
`"weekend"` check and then the default. -/
def parse_duration (duration_text : String) : Nat :=
  if duration_text = "" then 3
  else
    match firstIntLit duration_text with
    | some n => n
    | none =>
      let dl := pyLower duration_text
      if containsStr dl "week" &&
          (containsStr dl "a" || containsStr dl "one" || containsStr dl "1") then 7
      else if containsStr dl "week" && (containsStr dl "two" || containsStr dl "2") then 14
      else if containsStr dl "week" && (containsStr dl "three" || containsStr dl "3") then 21
      else if containsStr dl "weekend" then (if containsStr dl "long" then 3 else 2)
      else 3

/-! ## Session state and `update_trip_details` (state_manager.py) -/

/-- The slice of Streamlit session state touched by `update_trip_details`. -/
structure SessionState where
  trip_details : List (String × String)
  itinerary_generated : Bool
  generated_itinerary : Option String
deriving DecidableEq

/-- One iteration of the `for key, value in new_details.items()` loop of
`update_trip_details` (state_manager.py lines 65-70): assign only when the
key already exists, the value is truthy and non-whitespace, and differs from
the stored one (that comparison also drives the `modified` flag). -/
def updStep (acc : List (String × String) × Bool) (kv : String × String) :
    List (String × String) × Bool :=
  if mhas acc.1 kv.1 && kv.2 != "" && pyStrip kv.2 != "" then
    if mget acc.1 kv.1 != some kv.2 then (mset acc.1 kv.1 kv.2, true) else acc
  else acc

/-- Embedding of `update_trip_details` (state_manager.py lines 59-78).  Note the faithful
translation of the destination-change check: it runs AFTER the update loop
and compares the stripped new Destination against the ALREADY-UPDATED
record, not against the value the record held before the call. -/
def update_trip_details (st : SessionState) (new_details : List (String × String)) :
    SessionState × Bool :=
  let loop := new_details.foldl updStep (st.trip_details, false)
  let td := loop.1
  if mhas new_details "Destination" &&
      pyStrip (mgetD new_details "Destination" "") != "" &&
      pyStrip (mgetD new_details "Destination" "") != mgetD td "Destination" "" then
    ({ trip_details := td, itinerary_generated := false,
       generated_itinerary := none }, loop.2)
  else
    ({ st with trip_details := td }, loop.2)

/-- A session whose Trip Record is filled, with a generated itinerary. -/
def romeState : SessionState :=
  { trip_details := [("Destination", "Rome"), ("Duration", "5 days"),
      ("Budget", "mid-range"), ("Dietary Preferences", "none"),
      ("Mobility Concerns", "none"), ("Season", ""),
      ("Activity Preferences", ""), ("Accommodation Type", "")],
    itinerary_generated := true,
    generated_itinerary := some "OLD ITINERARY" }

/-! ## Slot Extractor merge (agents/details_agent.py) -/

/-- The merge guard of `DetailsAgent._extract_details` (details_agent.py line
164): `field in updated_details and updated_details[field] and
confidence_scores.get(field, 0) > 50`. -/
def mergeCond (updated : List (String × String)) (conf : List (String × Int))
    (field : String) : Bool :=
  match mget updated field with
  | some u => u != "" && decide (50 < mgetD conf field 0)
  | none => false

/-- The merge loop of `DetailsAgent._extract_details` (lines 162-167): each
field of the current record is overwritten by the extracted value exactly
under `mergeCond`.  Values are the strings of the decoded `updated_details`,
scores the integers of `confidence_scores`. -/
def mergeDetails (current updated : List (String × String))
    (conf : List (String × Int)) : List (String × String) :=
  current.map fun kv =>
    (kv.1, if mergeCond updated conf kv.1 then mgetD updated kv.1 "" else kv.2)

/-! ## Regex-based JSON block extraction

`DetailsAgent._extract_details` and the weather/advisory extractors use
`re.search` with a greedy `open [\s\S]* close` pattern, which matches from
the first opening delimiter of the string to its last closing delimiter (no
match when no closing delimiter follows the first opening one).  Agenta.py's
and state_manager.py's `extract_json_from_response` use the end-anchored
lazy pattern: the lazy quantifier stops at the first close brace followed by
whitespace only — and such a brace, when it exists, is necessarily the LAST
close brace of the string — so the match again runs from the first open
brace to the last close brace, and exists only when nothing but whitespace
follows that brace (hence `finditer` finds at most one match and taking the
last element of its result list is the same match). -/

/-- Opening brace character. -/
def lbrace : Char := Char.ofNat 123

/-- Closing brace character. -/
def rbrace : Char := Char.ofNat 125

/-- Split a list at the LAST occurrence of `c`: the prefix ending at that
occurrence together with the remaining suffix. -/
def upToLastSplit (c : Char) : List Char → Option (List Char × List Char)
  | [] => none
  | b :: t =>
    match upToLastSplit c t with
    | some (r, rest) => some (b :: r, rest)
    | none => if b == c then some ([b], t) else none

/-- Region matched by the greedy pattern: first opening delimiter to last
closing delimiter. -/
def spanGreedy (openC closeC : Char) : List Char → Option (List Char)
  | [] => none
  | b :: t =>
    if b == openC then
      match upToLastSplit closeC t with
      | some (r, _) => some (b :: r)
      | none => none
    else spanGreedy openC closeC t

/-- Region matched by the end-anchored lazy brace pattern: as `spanGreedy`,
but only when everything after the last close brace is whitespace. -/
def spanAnchored : List Char → Option (List Char)
  | [] => none
  | b :: t =>
    if b == lbrace then
      match upToLastSplit rbrace t with
      | some (r, rest) => if rest.all pySpace then some (b :: r) else none
      | none => none
    else spanAnchored t

/-- Embedding of `re.search(r'(  [\s\S]*  )', s)` with braces (details_agent.py line 156,
destination_agent.py lines 114 and 203). -/
def braceSpan (s : String) : Option String :=
  (spanGreedy lbrace rbrace s.data).map String.mk

/-- Embedding of `re.search(r'(\[[\s\S]*\])', s)` (destination_agent.py line 163). -/
def bracketSpan (s : String) : Option String :=
  (spanGreedy '[' ']' s.data).map String.mk

/-- The single match of Agenta.py line 69 / state_manager.py line 96. -/
def braceSpanAnchored (s : String) : Option String :=
  (spanAnchored s.data).map String.mk

/-- State of the claim-side scanner. -/
structure ScanSt where
  depth : Nat
  cur : List Char
  lastR : Option (List Char)

/-- One step of the claim-side scanner. -/
def scanStep (openC closeC : Char) (st : ScanSt) (c : Char) : ScanSt :=
  if st.depth == 0 then
    if c == openC then { depth := 1, cur := [c], lastR := st.lastR } else st
  else if c == closeC then
    if st.depth == 1 then { depth := 0, cur := [], lastR := some (st.cur ++ [c]) }
    else { depth := st.depth - 1, cur := st.cur ++ [c], lastR := st.lastR }
  else if c == openC then
    { depth := st.depth + 1, cur := st.cur ++ [c], lastR := st.lastR }
  else { st with cur := st.cur ++ [c] }

/-- Claim-side definition, following the spec's words: the LAST top-level
balanced `open ... close` region of the string ("the last well-formed
region"; on the concrete inputs used below balancedness coincides with JSON
well-formedness). -/
def lastBalancedRegion (openC closeC : Char) (s : String) : Option String :=
  ((s.data.foldl (scanStep openC closeC) ⟨0, [], none⟩).lastR).map String.mk

/-! ## The Slot Extractor pipeline (details_agent.py) and
`extract_json_from_response` -/

/-- The decoded payload of a model response: the `updated_details` and
`confidence_scores` maps. -/
structure ExtractedData where
  updated : List (String × String)
  conf : List (String × Int)

/-- Embedding of `DetailsAgent._extract_details` after the LLM call (details_agent.py
lines 153-172): regex-search for the greedy brace span, decode it, merge.
`decode` abstracts `json.loads` plus the two `.get` reads; `none` models a
`json.JSONDecodeError` or a non-object payload, both swallowed by the
`except` clause, which returns the record unchanged with empty scores. -/
def extract_details (decode : String → Option ExtractedData) (result : String)
    (current : List (String × String)) :
    List (String × String) × List (String × Int) :=
  match braceSpan result with
  | none => (current, [])
  | some block =>
    match decode block with
    | none => (current, [])
    | some ed => (mergeDetails current ed.updated ed.conf, ed.conf)

/-- Embedding of `extract_json_from_response` (state_manager.py lines 91-103, Agenta.py
lines 66-76): anchored regex match, then `json.loads` (abstracted as
`loads`); any failure yields `None`, never an exception. -/
def extract_json_from_response {α : Type} (loads : String → Option α)
    (response : String) : Option α :=
  (braceSpanAnchored response).bind loads

/-! ## Question Planner (agents/details_agent.py lines 18-50 and 174-256,
agents/determine_next_question.py lines 11-70) -/

/-- The `required_fields` list of `DetailsAgent.__init__`. -/
def plannerRequired : List String :=
  ["Destination", "Origin", "Duration", "Travel_Dates", "Travelers_Count",
   "Travelers_Type", "Budget", "Dietary_Preferences", "Mobility_Concerns"]

/-- The `optional_fields` list. -/
def plannerOptional : List String :=
  ["Season", "Activity_Preferences", "Accommodation_Type",
   "Transportation_Preferences", "Purpose_Of_Trip", "Must_See_Attractions",
   "Weather_Preferences", "Previous_Travel_Experience", "Shopping_Interests",
   "Special_Occasions", "Language_Assistance_Needs"]

/-- The `tier1_fields` list. -/
def tier1_fields : List String :=
  ["Destination", "Origin", "Duration", "Travel_Dates", "Travelers_Count", "Budget"]

/-- The `tier2_fields` list. -/
def tier2_fields : List String :=
  ["Travelers_Type", "Dietary_Preferences", "Mobility_Concerns", "Accommodation_Type"]

/-- The `tier3_fields` list. -/
def tier3_fields : List String :=
  ["Purpose_Of_Trip", "Must_See_Attractions", "Transportation_Preferences",
   "Special_Occasions", "Weather_Preferences"]

/-- The `tier4_fields` list. -/
def tier4_fields : List String :=
  ["Previous_Travel_Experience", "Shopping_Interests", "Language_Assistance_Needs",
   "Season"]

/-- Python `[field for field in fields if not current_details.get(field, "").strip()]`. -/
def missingIn (current : List (String × String)) (fields : List String) : List String :=
  fields.filter fun f => pyStrip (mgetD current f "") == ""

/-- The first component of the planner's return value: either a fixed text
returned verbatim, or one LLM phrasing call about a single target field. -/
inductive Question where
  | fixed (text : String) : Question
  | llmAbout (target : String) : Question
deriving DecidableEq

/-- The fixed all-details-collected message (determine_next_question.py line
16; details_agent.py line 183 carries the same sentence). -/
def readyMessage : String :=
  "Great! I have all the essential information I need to create your personalized itinerary. Just say 'generate itinerary' and I'll create a detailed plan for your trip! ✨"

/-- The unreachable final fallback of determine_next_question.py line 70. -/
def fallbackMessage : String :=
  "I think we have all the information we need! Would you like me to generate your itinerary now?"

/-- Embedding of `_determine_next_question` (agents/determine_next_question.py lines
11-70): the target-selection logic, with the LLM phrasing call abstracted as
`Question.llmAbout target`. -/
def determine_next_question (current : List (String × String)) :
    Question × List String :=
  let missing_required := missingIn current plannerRequired
  if missing_required.isEmpty then (.fixed readyMessage, [])
  else
    match missingIn current tier1_fields with
    | f :: _ => (.llmAbout f, missing_required)
    | [] =>
      match missingIn current tier2_fields with
      | f :: _ => (.llmAbout f, missing_required)
      | [] =>
        match missingIn current tier3_fields with
        | f :: _ => (.llmAbout f, missing_required)
        | [] =>
          match plannerOptional.filter (fun f =>
              !((tier1_fields ++ tier2_fields ++ tier3_fields).contains f) &&
              pyStrip (mgetD current f "") == "") with
          | f :: _ => (.llmAbout f, missing_required)
          | [] => (.fixed fallbackMessage, [])

/-- Embedding of `DetailsAgent._determine_next_question` (agents/details_agent.py lines
174-256): tier 1 first, else tier 2 if it has a missing field, else
literally `self.tier3_fields[0]`. -/
def da_determine_next_question (current : List (String × String)) :
    Question × List String :=
  let missing_required := missingIn current plannerRequired
  if missing_required.isEmpty then (.fixed readyMessage, [])
  else
    match missingIn current tier1_fields with
    | f :: _ => (.llmAbout f, missing_required)
    | [] =>
      match missingIn current tier2_fields with
      | f :: _ => (.llmAbout f, missing_required)
      | [] => (.llmAbout "Purpose_Of_Trip", missing_required)

/-- Claim-side priority order (from the spec's words): tier 1, tier 2,
tier 3, tier 4, then the remaining optional fields. -/
def claimTiers : List (List String) :=
  [tier1_fields, tier2_fields, tier3_fields, tier4_fields,
   plannerOptional.filter fun f =>
     !((tier1_fields ++ tier2_fields ++ tier3_fields ++ tier4_fields).contains f)]

/-- Claim-side target: the first missing field of the highest-priority tier
that has one. -/
def claimTarget (current : List (String × String)) : Option String :=
  claimTiers.findSome? fun tier => (missingIn current tier).head?

/-- A Trip Record with all nine planner-required fields filled. -/
def planner_complete : List (String × String) :=
  [("Destination", "Paris"), ("Origin", "Delhi"), ("Duration", "5 days"),
   ("Travel_Dates", "2025-05-01"), ("Travelers_Count", "2"),
   ("Travelers_Type", "couple"), ("Budget", "mid-range"),
   ("Dietary_Preferences", "none"), ("Mobility_Concerns", "none")]

/-! ## Destination research caches (agents/destination_agent.py,
destination_agent.py) -/

/-- Embedding of `DestinationAgent.process` (agents/destination_agent.py lines 17-51).
The four gateway research calls and the assembled result dict are abstracted
as `research` — whatever it returns, including partial-failure placeholders,
is stored.  The `Bool` records whether this invocation reached the gateway. -/
def destProcess {α : Type} (research : String → α) (cache : List (String × α))
    (destination : String) : Option α × List (String × α) × Bool :=
  if destination = "" then (none, cache, false)
  else
    match mget cache (pyStrip destination) with
    | some v => (some v, cache, false)
    | none =>
      (some (research (pyStrip destination)),
       mset cache (pyStrip destination) (research (pyStrip destination)), true)

/-- Embedding of `DestinationResearchAgent.get_destination_info` (destination_agent.py
lines 20-37): exact-string key, no emptiness guard, `analyze` abstracting
the web search plus LLM analysis. -/
def getDestinationInfo {α : Type} (analyze : String → α)
    (cache : List (String × α)) (destination : String) :
    α × List (String × α) × Bool :=
  match mget cache destination with
  | some v => (v, cache, false)
  | none => (analyze destination, mset cache destination (analyze destination), true)

/-- Fold a sequence of later `process` calls over the cache. -/
def runProcessCalls {α : Type} (research : String → α)
    (cache : List (String × α)) : List String → List (String × α)
  | [] => cache
  | d :: ds => runProcessCalls research (destProcess research cache d).2.1 ds

/-- Fold a sequence of later `get_destination_info` calls over the cache. -/
def runInfoCalls {α : Type} (analyze : String → α)
    (cache : List (String × α)) : List String → List (String × α)
  | [] => cache
  | d :: ds => runInfoCalls analyze (getDestinationInfo analyze cache d).2.1 ds

/-! ## `update_trip_details_from_json` (Agenta.py lines 78-87) -/

/-- One iteration of the `for key, value in details.items()` loop: only
truthy, non-whitespace values; the incoming key is stripped; only existing
keys are assigned; the stored value is stripped. -/
def updJsonStep (td : List (String × String)) (kv : String × String) :
    List (String × String) :=
  if kv.2 != "" && pyStrip kv.2 != "" then
    if mhas td (pyStrip kv.1) then mset td (pyStrip kv.1) (pyStrip kv.2) else td
  else td

/-- Embedding of `update_trip_details_from_json`, given the already-decoded
`trip_details` object of the response JSON. -/
def update_trip_details_from_json (td : List (String × String))
    (details : List (String × String)) : List (String × String) :=
  details.foldl updJsonStep td

/-! ## Supporting lemmas and claim theorems -/

theorem mget_mset_self {α : Type} (m : List (String × α)) (x : String) (v : α) :
    mget (mset m x v) x = some v := by
  induction m with
  | nil => simp [mset, mget]
  | cons kv t ih =>
    obtain ⟨k, w⟩ := kv
    by_cases h : (k == x) = true
    · simp [mset, mget, h]
    · simp [mset, mget, h, ih]

theorem mget_mset_ne {α : Type} (m : List (String × α)) {x y : String} (v : α)
    (h : x ≠ y) : mget (mset m y v) x = mget m x := by
  induction m with
  | nil =>
    have hyx : (y == x) = false := beq_eq_false_iff_ne.mpr fun hyx => h hyx.symm
    simp [mset, mget, hyx]
  | cons kv t ih =>
    obtain ⟨k, w⟩ := kv
    by_cases hk : (k == y) = true
    · have hkx : (k == x) = false := by
        refine beq_eq_false_iff_ne.mpr fun hkx => h ?_
        exact hkx.symm.trans (beq_iff_eq.mp hk)
      simp [mset, mget, hk, hkx]
    · by_cases hkx : (k == x) = true
      · simp [mset, mget, hk, hkx]
      · simp [mset, mget, hk, hkx, ih]

theorem mkeys_mset_of_mhas {α : Type} (m : List (String × α)) (x : String) (v : α)
    (h : mhas m x = true) : mkeys (mset m x v) = mkeys m := by
  induction m with
  | nil => simp [mhas, mget] at h
  | cons kv t ih =>
    obtain ⟨k, w⟩ := kv
    by_cases hk : (k == x) = true
    · simp [mset, mkeys, hk, beq_iff_eq.mp hk]
    · have h' : mhas t x = true := by simpa [mhas, mget, hk] using h
      simpa [mset, mkeys, hk] using ih h'

theorem mergeCond_iff (updated : List (String × String)) (conf : List (String × Int))
    (field : String) :
    mergeCond updated conf field = true ↔
      ∃ u, mget updated field = some u ∧ u ≠ "" ∧ 50 < mgetD conf field 0 := by
  cases hu : mget updated field <;> simp [mergeCond, hu, bne_iff_ne]

theorem upToLastSplit_none (c : Char) :
    ∀ l, upToLastSplit c l = none → ∀ x ∈ l, x ≠ c := by
  intro l
  induction l with
  | nil => simp
  | cons b t ih =>
    intro h x hx
    cases hs : upToLastSplit c t with
    | some pr => simp [upToLastSplit, hs] at h
    | none =>
      simp [upToLastSplit, hs] at h
      rcases List.mem_cons.mp hx with rfl | hx'
      · simpa using h
      · exact ih hs x hx'

theorem upToLastSplit_spec (c : Char) :
    ∀ l r rest, upToLastSplit c l = some (r, rest) →
      l = r ++ rest ∧ (∃ r0, r = r0 ++ [c]) ∧ ∀ x ∈ rest, x ≠ c := by
  intro l
  induction l with
  | nil => intro r rest h; simp [upToLastSplit] at h
  | cons b t ih =>
    intro r rest h
    cases hs : upToLastSplit c t with
    | some pr =>
      obtain ⟨r', rest'⟩ := pr
      simp [upToLastSplit, hs] at h
      obtain ⟨hr, hrest⟩ := h
      obtain ⟨heq, ⟨r0, hr0⟩, hall⟩ := ih r' rest' hs
      subst hrest
      refine ⟨by rw [← hr, heq]; simp, ⟨b :: r0, by rw [← hr, hr0]; simp⟩, hall⟩
    | none =>
      simp [upToLastSplit, hs] at h
      obtain ⟨hbc, hr, hrest⟩ := h
      subst hrest
      refine ⟨by rw [← hr]; simp, ⟨[], by rw [← hr, hbc]; simp⟩, ?_⟩
      exact upToLastSplit_none c t hs

theorem spanGreedy_spec (openC closeC : Char) :
    ∀ l t, spanGreedy openC closeC l = some t →
      ∃ pre mid post, l = pre ++ t ++ post ∧ t = openC :: (mid ++ [closeC]) ∧
        (∀ x ∈ pre, x ≠ openC) ∧ (∀ x ∈ post, x ≠ closeC) := by
  intro l
  induction l with
  | nil => intro t h; simp [spanGreedy] at h
  | cons b l ih =>
    intro t h
    by_cases hb : (b == openC) = true
    · cases hs : upToLastSplit closeC l with
      | some pr =>
        obtain ⟨r, rest⟩ := pr
        simp [spanGreedy, hb, hs] at h
        obtain ⟨heq, ⟨r0, hr0⟩, hall⟩ := upToLastSplit_spec closeC l r rest hs
        refine ⟨[], r0, rest, ?_, ?_, by simp, hall⟩
        · rw [← h, heq]; simp
        · rw [← h, hr0, beq_iff_eq.mp hb]
      | none => simp [spanGreedy, hb, hs] at h
    · simp only [spanGreedy, hb] at h
      rw [if_neg (by simp [hb])] at h
      obtain ⟨pre, mid, post, h1, h2, h3, h4⟩ := ih t h
      refine ⟨b :: pre, mid, post, by rw [h1]; simp, h2, ?_, h4⟩
      intro x hx
      rcases List.mem_cons.mp hx with rfl | hx'
      · intro hxo; rw [hxo] at hb; simp at hb
      · exact h3 x hx'

theorem spanAnchored_spec :
    ∀ l t, spanAnchored l = some t →
      ∃ pre mid post, l = pre ++ t ++ post ∧ t = lbrace :: (mid ++ [rbrace]) ∧
        (∀ x ∈ pre, x ≠ lbrace) ∧ (∀ x ∈ post, x ≠ rbrace) ∧
        post.all pySpace = true := by
  intro l
  induction l with
  | nil => intro t h; simp [spanAnchored] at h
  | cons b l ih =>
    intro t h
    by_cases hb : (b == lbrace) = true
    · cases hs : upToLastSplit rbrace l with
      | some pr =>
        obtain ⟨r, rest⟩ := pr
        simp [spanAnchored, hb, hs] at h
        obtain ⟨hsp, heq2⟩ := h
        obtain ⟨heq, ⟨r0, hr0⟩, hall⟩ := upToLastSplit_spec rbrace l r rest hs
        refine ⟨[], r0, rest, ?_, ?_, by simp, hall, List.all_eq_true.mpr hsp⟩
        · rw [← heq2, heq]; simp
        · rw [← heq2, hr0, beq_iff_eq.mp hb]
      | none => simp [spanAnchored, hb, hs] at h
    · simp only [spanAnchored, hb] at h
      rw [if_neg (by simp [hb])] at h
      obtain ⟨pre, mid, post, h1, h2, h3, h4, h5⟩ := ih t h
      refine ⟨b :: pre, mid, post, by rw [h1]; simp, h2, ?_, h4, h5⟩
      intro x hx
      rcases List.mem_cons.mp hx with rfl | hx'
      · intro hxo; rw [hxo] at hb; simp at hb
      · exact h3 x hx'

/-! ## Claim theorems: C6, C2, C7 -/

/-- Claim C6: `has_required_details` returns `true` iff every required field
(Destination, Duration, Budget, Dietary Preferences, Mobility Concerns) is a
non-empty string after trimming whitespace, and records that agree on the
required fields (whatever other keys they carry) get the same answer. -/
theorem completeness_iff_required_nonblank (td td' : List (String × String)) :
    (has_required_details td = true ↔
       ∀ f ∈ requiredFields, pyStrip (mgetD td f "") ≠ "") ∧
    ((∀ f ∈ requiredFields, mgetD td f "" = mgetD td' f "") →
       has_required_details td = has_required_details td') := by
  constructor
  · simp [has_required_details, List.all_eq_true, bne_iff_ne]
  · intro h
    rw [Bool.eq_iff_iff]
    simp only [has_required_details, List.all_eq_true, bne_iff_ne]
    constructor <;> intro hall f hf
    · rw [← h f hf]; exact hall f hf
    · rw [h f hf]; exact hall f hf

/-- Witness for C6 at concrete records: an extra key and an optional field do
not change completeness. -/
theorem completeness_iff_required_nonblank_witness :
    has_required_details
        [("Destination", "Paris"), ("Duration", "5 days"), ("Budget", "mid"),
         ("Dietary Preferences", "none"), ("Mobility Concerns", "none"),
         ("Season", "summer"), ("ExtraKey", "whatever")] =
      has_required_details
        [("Destination", "Paris"), ("Duration", "5 days"), ("Budget", "mid"),
         ("Dietary Preferences", "none"), ("Mobility Concerns", "none")] :=
  (completeness_iff_required_nonblank _ _).2 (by decide)

/-- Claim C2: from a READY state (all required details filled, no itinerary
yet), the READY→ITINERARY_GENERATED transition of the dialogue loop fires
exactly when the lowercased user input contains one of the fixed trigger
phrases as a substring; in particular it fires on
"please generate itinerary now" and does not fire on
"I generally like plans". -/
theorem trigger_detection (td : List (String × String))
    (hready : has_required_details td = true) :
    (∀ input, readyTransitionFires td false input = true ↔
        ∃ p ∈ generate_triggers, containsStr (pyLower input) p = true) ∧
    readyTransitionFires td false "please generate itinerary now" = true ∧
    readyTransitionFires td false "I generally like plans" = false := by
  refine ⟨fun input => ?_, ?_, ?_⟩
  · simp [readyTransitionFires, hready, shouldGenerate, List.any_eq_true]
  · simp [readyTransitionFires, hready]
    decide
  · simp [readyTransitionFires, hready]
    decide

/-- Witness for C2 at a concrete complete Trip Record. -/
theorem trigger_detection_witness :
    readyTransitionFires
        [("Destination", "Paris"), ("Duration", "5 days"), ("Budget", "mid"),
         ("Dietary Preferences", "none"), ("Mobility Concerns", "none"),
         ("Season", ""), ("Activity Preferences", ""), ("Accommodation Type", "")]
        false "please generate itinerary now" = true ∧
    readyTransitionFires
        [("Destination", "Paris"), ("Duration", "5 days"), ("Budget", "mid"),
         ("Dietary Preferences", "none"), ("Mobility Concerns", "none"),
         ("Season", ""), ("Activity Preferences", ""), ("Accommodation Type", "")]
        false "I generally like plans" = false :=
  ⟨(trigger_detection _ (by decide)).2.1, (trigger_detection _ (by decide)).2.2⟩

/-- Claim C7: the duration parser maps "10 days"↦10, "a week"↦7,
"two weeks"↦14, "long weekend"↦3, "weekend"↦2 and "asdf"↦3; whenever the
input contains an integer literal the first one is returned, and when it
contains no digits and no "week"/"weekend" keyword the default 3 is
returned. -/
theorem duration_parser_cases :
    parse_duration "10 days" = 10 ∧ parse_duration "a week" = 7 ∧
    parse_duration "two weeks" = 14 ∧ parse_duration "long weekend" = 3 ∧
    parse_duration "weekend" = 2 ∧ parse_duration "asdf" = 3 ∧
    (∀ s n, firstIntLit s = some n → parse_duration s = n) ∧
    (∀ s, firstIntLit s = none → containsStr (pyLower s) "week" = false →
       containsStr (pyLower s) "weekend" = false → parse_duration s = 3) := by
  refine ⟨by decide, by decide, by decide, by decide, by decide, by decide, ?_, ?_⟩
  · intro s n h
    by_cases hs : s = ""
    · subst hs; simp [firstIntLit, firstDigitRun] at h
    · simp [parse_duration, hs, h]
  · intro s h hw hwe
    by_cases hs : s = ""
    · subst hs; simp [parse_duration]
    · simp [parse_duration, hs, h, hw, hwe]

/-- Witness for C7's universally quantified clauses at concrete inputs. -/
theorem duration_parser_cases_witness :
    parse_duration "go for 12 days" = 12 ∧ parse_duration "whenever" = 3 :=
  ⟨duration_parser_cases.2.2.2.2.2.2.1 "go for 12 days" 12 (by decide),
   duration_parser_cases.2.2.2.2.2.2.2 "whenever" (by decide) (by decide) (by decide)⟩

/-- Claim C1 (code bug): updating the Destination of a Trip Record that has a
generated itinerary with a clean new value ("Paris") different from the
stored one ("Rome") changes only the Destination and leaves
`itinerary_generated = true` and the stored itinerary in place — the
destination-change reset never fires, because the check compares the new
value against the already-updated record.  With a non-stripped variant of
the very same new value (" Paris ") the reset does fire, exposing the
inconsistency with the code's own "If destination changed, reset itinerary"
comment. -/
theorem destination_change_reset_bug :
    update_trip_details romeState [("Destination", "Paris")] =
      ({ trip_details := [("Destination", "Paris"), ("Duration", "5 days"),
           ("Budget", "mid-range"), ("Dietary Preferences", "none"),
           ("Mobility Concerns", "none"), ("Season", ""),
           ("Activity Preferences", ""), ("Accommodation Type", "")],
         itinerary_generated := true,
         generated_itinerary := some "OLD ITINERARY" }, true) ∧
    (update_trip_details romeState [("Destination", " Paris ")]).1.itinerary_generated
        = false := by
  constructor
  · decide
  · decide

/-- Pointwise description of the merge loop: shared support lemma. -/
theorem mergeDetails_lookup (current updated : List (String × String))
    (conf : List (String × Int)) (field : String) :
    mget (mergeDetails current updated conf) field =
      match mget current field with
      | none => none
      | some v =>
        match mget updated field with
        | some u => if u ≠ "" ∧ 50 < mgetD conf field 0 then some u else some v
        | none => some v := by
  induction current with
  | nil => rfl
  | cons kv t ih =>
    obtain ⟨k, v⟩ := kv
    by_cases hk : (k == field) = true
    · have hkeq : k = field := beq_iff_eq.mp hk
      subst hkeq
      by_cases hb : mergeCond updated conf k = true
      · obtain ⟨u, hu, hne, hgt⟩ := (mergeCond_iff updated conf k).mp hb
        have hgt' : 50 < (mget conf k).getD 0 := hgt
        simp [mergeDetails, mget, hb, hu, hne, hgt', mgetD]
      · cases hu : mget updated k with
        | none => simp [mergeDetails, mget, hb, hu]
        | some u =>
          have hnc : ¬(u ≠ "" ∧ 50 < mgetD conf k 0) := fun hand =>
            hb ((mergeCond_iff updated conf k).mpr ⟨u, hu, hand.1, hand.2⟩)
          simp [mergeDetails, mget, hb, hu, hnc]
    · simpa [mergeDetails, mget, hk] using ih

/-- Claim C4: for every current Trip Record, extracted mapping and confidence
mapping, the merged value of each field equals the extracted value exactly
when the extracted value exists, is non-empty, and its confidence score is
strictly greater than 50 (a missing score counting as 0); otherwise the
field keeps its prior value.  Fields absent from the record stay absent. -/
theorem merge_policy (current updated : List (String × String))
    (conf : List (String × Int)) (field : String) :
    mget (mergeDetails current updated conf) field =
      match mget current field with
      | none => none
      | some v =>
        match mget updated field with
        | some u => if u ≠ "" ∧ 50 < mgetD conf field 0 then some u else some v
        | none => some v :=
  mergeDetails_lookup current updated conf field

/-- Claim C3 (counterexample): on a response containing two brace-delimited
blocks separated by prose, no extractor selects the last well-formed block.
With trailing junk after the final close brace the anchored extractor of
Agenta.py/state_manager.py selects nothing at all; without it, it and the
greedy extractor of details_agent.py select the region spanning BOTH blocks;
the events extractor does the same with brackets. -/
theorem extraction_last_block_counterexample :
    lastBalancedRegion lbrace rbrace "\x7b\"a\": 1\x7d tail \x7b\"b\": 2\x7d x"
        = some "\x7b\"b\": 2\x7d" ∧
    braceSpanAnchored "\x7b\"a\": 1\x7d tail \x7b\"b\": 2\x7d x" = none ∧
    braceSpan "\x7b\"a\": 1\x7d tail \x7b\"b\": 2\x7d x"
        = some "\x7b\"a\": 1\x7d tail \x7b\"b\": 2\x7d" ∧
    lastBalancedRegion lbrace rbrace "\x7b\"a\": 1\x7d tail \x7b\"b\": 2\x7d"
        = some "\x7b\"b\": 2\x7d" ∧
    braceSpanAnchored "\x7b\"a\": 1\x7d tail \x7b\"b\": 2\x7d"
        = some "\x7b\"a\": 1\x7d tail \x7b\"b\": 2\x7d" ∧
    bracketSpan "[1] mid [2]" = some "[1] mid [2]" ∧
    lastBalancedRegion '[' ']' "[1] mid [2]" = some "[2]" := by
  refine ⟨by decide, by decide, by decide, by decide, by decide, by decide, by decide⟩

/-- Claim C3 (amended): every region selected by an extractor runs from the
FIRST opening delimiter of the response to its LAST closing delimiter
(spanning everything in between, not just the last block), and the anchored
Agenta.py/state_manager.py variant selects such a region only when nothing
but whitespace follows the final close brace. -/
theorem extraction_selects_first_to_last (s t : String) :
    (braceSpan s = some t →
       ∃ pre mid post, s.data = pre ++ t.data ++ post ∧
         t.data = lbrace :: (mid ++ [rbrace]) ∧
         (∀ x ∈ pre, x ≠ lbrace) ∧ (∀ x ∈ post, x ≠ rbrace)) ∧
    (bracketSpan s = some t →
       ∃ pre mid post, s.data = pre ++ t.data ++ post ∧
         t.data = '[' :: (mid ++ [']']) ∧
         (∀ x ∈ pre, x ≠ '[') ∧ (∀ x ∈ post, x ≠ ']')) ∧
    (braceSpanAnchored s = some t →
       ∃ pre mid post, s.data = pre ++ t.data ++ post ∧
         t.data = lbrace :: (mid ++ [rbrace]) ∧
         (∀ x ∈ pre, x ≠ lbrace) ∧ (∀ x ∈ post, x ≠ rbrace) ∧
         post.all pySpace = true) := by
  refine ⟨fun h => ?_, fun h => ?_, fun h => ?_⟩
  · obtain ⟨u, hu, ht⟩ := Option.map_eq_some'.mp h
    obtain ⟨pre, mid, post, h1, h2, h3, h4⟩ := spanGreedy_spec lbrace rbrace s.data u hu
    exact ⟨pre, mid, post, by rw [← ht]; exact h1, by rw [← ht]; exact h2, h3, h4⟩
  · obtain ⟨u, hu, ht⟩ := Option.map_eq_some'.mp h
    obtain ⟨pre, mid, post, h1, h2, h3, h4⟩ := spanGreedy_spec '[' ']' s.data u hu
    exact ⟨pre, mid, post, by rw [← ht]; exact h1, by rw [← ht]; exact h2, h3, h4⟩
  · obtain ⟨u, hu, ht⟩ := Option.map_eq_some'.mp h
    obtain ⟨pre, mid, post, h1, h2, h3, h4, h5⟩ := spanAnchored_spec s.data u hu
    exact ⟨pre, mid, post, by rw [← ht]; exact h1, by rw [← ht]; exact h2, h3, h4, h5⟩

/-- Witness for the amended C3 at a concrete two-block response. -/
theorem extraction_selects_first_to_last_witness :
    ∃ pre mid post,
      ("p \x7b1\x7d q \x7b2\x7d").data
          = pre ++ ("\x7b1\x7d q \x7b2\x7d").data ++ post ∧
      ("\x7b1\x7d q \x7b2\x7d").data = lbrace :: (mid ++ [rbrace]) ∧
      (∀ x ∈ pre, x ≠ lbrace) ∧ (∀ x ∈ post, x ≠ rbrace) :=
  (extraction_selects_first_to_last "p \x7b1\x7d q \x7b2\x7d"
      "\x7b1\x7d q \x7b2\x7d").1 (by decide)

/-- Claim C5: when no JSON block is found in the model response, or the
extracted block fails decoding, the Slot Extractor returns the Trip Record
unchanged with empty confidence scores, and `extract_json_from_response`
returns `none`; both are total functions, so no error escapes to the
caller. -/
theorem parse_failure_atomicity {α : Type} (loads : String → Option α)
    (decode : String → Option ExtractedData) (result : String)
    (current : List (String × String)) :
    (braceSpan result = none →
       extract_details decode result current = (current, [])) ∧
    (∀ block, braceSpan result = some block → decode block = none →
       extract_details decode result current = (current, [])) ∧
    (braceSpanAnchored result = none →
       extract_json_from_response loads result = none) ∧
    (∀ block, braceSpanAnchored result = some block → loads block = none →
       extract_json_from_response loads result = none) := by
  refine ⟨fun h => by simp [extract_details, h],
          fun b hb hd => by simp [extract_details, hb, hd],
          fun h => by simp [extract_json_from_response, h],
          fun b hb hl => by simp [extract_json_from_response, hb, hl]⟩

/-- Witness for C5 at concrete failing responses. -/
theorem parse_failure_atomicity_witness :
    extract_details (fun _ => none) "no json block here"
        [("Destination", "Rome")] = ([("Destination", "Rome")], []) ∧
    extract_details (fun _ => none) "prose \x7b not json \x7d"
        [("Destination", "Rome")] = ([("Destination", "Rome")], []) ∧
    extract_json_from_response (fun (_ : String) => (none : Option Unit))
        "no json block here" = none :=
  ⟨(parse_failure_atomicity (fun (_ : String) => (none : Option Unit))
        (fun _ => none) "no json block here" [("Destination", "Rome")]).1 (by decide),
   (parse_failure_atomicity (fun (_ : String) => (none : Option Unit))
        (fun _ => none) "prose \x7b not json \x7d" [("Destination", "Rome")]).2.1
      "\x7b not json \x7d" (by decide) rfl,
   (parse_failure_atomicity (fun (_ : String) => (none : Option Unit))
        (fun _ => none) "no json block here" [("Destination", "Rome")]).2.2.1
      (by decide)⟩

/-- Claim C8: for every Trip Record, when no required field is missing both
planner implementations return the fixed ready-to-generate message with an
empty missing list; otherwise both pick as question target exactly the first
missing field of the highest-priority tier containing one (necessarily
tier 1 or tier 2, since every required field lies in those tiers), that
target is indeed missing, and the full missing-required list is returned
alongside it. -/
theorem question_planner_selection (current : List (String × String)) :
    (missingIn current plannerRequired = [] →
       determine_next_question current = (.fixed readyMessage, []) ∧
       da_determine_next_question current = (.fixed readyMessage, [])) ∧
    (missingIn current plannerRequired ≠ [] →
       ∃ f, claimTarget current = some f ∧ pyStrip (mgetD current f "") = "" ∧
         determine_next_question current
             = (.llmAbout f, missingIn current plannerRequired) ∧
         da_determine_next_question current
             = (.llmAbout f, missingIn current plannerRequired)) := by
  constructor
  · intro h
    constructor <;>
      simp [determine_next_question, da_determine_next_question, h]
  · intro h
    have hne : (missingIn current plannerRequired).isEmpty = false := by
      cases hmr : missingIn current plannerRequired with
      | nil => exact absurd hmr h
      | cons a l => simp
    obtain ⟨fr, hfr⟩ : ∃ fr, fr ∈ missingIn current plannerRequired := by
      cases hmr : missingIn current plannerRequired with
      | nil => exact absurd hmr h
      | cons a l => exact ⟨a, by simp⟩
    have hfr2 := List.mem_filter.mp hfr
    have htier : fr ∈ tier1_fields ∨ fr ∈ tier2_fields := by
      have hmem : ∀ g ∈ plannerRequired, g ∈ tier1_fields ∨ g ∈ tier2_fields := by
        decide
      exact hmem fr hfr2.1
    cases hm1 : missingIn current tier1_fields with
    | cons f rest =>
      have hf : f ∈ missingIn current tier1_fields := by rw [hm1]; simp
      have hfp := (List.mem_filter.mp hf).2
      refine ⟨f, ?_, by simpa using hfp, ?_, ?_⟩
      · simp [claimTarget, claimTiers, List.findSome?, hm1]
      · simp [determine_next_question, hne, hm1]
      · simp [da_determine_next_question, hne, hm1]
    | nil =>
      have hfr1 : fr ∈ tier2_fields := by
        rcases htier with h1 | h2
        · exfalso
          have : fr ∈ missingIn current tier1_fields :=
            List.mem_filter.mpr ⟨h1, hfr2.2⟩
          rw [hm1] at this
          simp at this
        · exact h2
      cases hm2 : missingIn current tier2_fields with
      | nil =>
        exfalso
        have : fr ∈ missingIn current tier2_fields :=
          List.mem_filter.mpr ⟨hfr1, hfr2.2⟩
        rw [hm2] at this
        simp at this
      | cons f rest =>
        have hf : f ∈ missingIn current tier2_fields := by rw [hm2]; simp
        have hfp := (List.mem_filter.mp hf).2
        refine ⟨f, ?_, by simpa using hfp, ?_, ?_⟩
        · simp [claimTarget, claimTiers, List.findSome?, hm1, hm2]
        · simp [determine_next_question, hne, hm1, hm2]
        · simp [da_determine_next_question, hne, hm1, hm2]

/-- Witness for C8: the complete record yields the ready message for both
implementations; with only a Destination the selected target is "Origin",
the first missing tier-1 field. -/
theorem question_planner_selection_witness :
    (determine_next_question planner_complete = (.fixed readyMessage, []) ∧
       da_determine_next_question planner_complete = (.fixed readyMessage, [])) ∧
    (∃ f, claimTarget [("Destination", "Paris")] = some f ∧
       pyStrip (mgetD [("Destination", "Paris")] f "") = "" ∧
       determine_next_question [("Destination", "Paris")]
           = (.llmAbout f, missingIn [("Destination", "Paris")] plannerRequired) ∧
       da_determine_next_question [("Destination", "Paris")]
           = (.llmAbout f, missingIn [("Destination", "Paris")] plannerRequired)) :=
  ⟨(question_planner_selection planner_complete).1 (by decide),
   (question_planner_selection [("Destination", "Paris")]).2 (by decide)⟩

theorem destProcess_preserves {α : Type} (research : String → α)
    (cache : List (String × α)) (d x : String) (v : α)
    (h : mget cache x = some v) :
    mget (destProcess research cache d).2.1 x = some v := by
  unfold destProcess
  by_cases hd : d = ""
  · simp [hd, h]
  · simp only [hd, if_neg hd]
    cases hc : mget cache (pyStrip d) with
    | some w => simpa using h
    | none =>
      simp only []
      by_cases hx : x = pyStrip d
      · subst hx; rw [h] at hc; exact absurd hc (by simp)
      · simpa [mget_mset_ne _ _ hx] using h

theorem getDestinationInfo_preserves {α : Type} (analyze : String → α)
    (cache : List (String × α)) (d x : String) (v : α)
    (h : mget cache x = some v) :
    mget (getDestinationInfo analyze cache d).2.1 x = some v := by
  unfold getDestinationInfo
  cases hc : mget cache d with
  | some w => simpa using h
  | none =>
    simp only []
    by_cases hx : x = d
    · subst hx; rw [h] at hc; exact absurd hc (by simp)
    · simpa [mget_mset_ne _ _ hx] using h

theorem runProcessCalls_preserves {α : Type} (research : String → α) :
    ∀ (ds : List String) (cache : List (String × α)) (x : String) (v : α),
      mget cache x = some v → mget (runProcessCalls research cache ds) x = some v := by
  intro ds
  induction ds with
  | nil => intro cache x v h; exact h
  | cons d ds ih =>
    intro cache x v h
    exact ih _ x v (destProcess_preserves research cache d x v h)

theorem runInfoCalls_preserves {α : Type} (analyze : String → α) :
    ∀ (ds : List String) (cache : List (String × α)) (x : String) (v : α),
      mget cache x = some v → mget (runInfoCalls analyze cache ds) x = some v := by
  intro ds
  induction ds with
  | nil => intro cache x v h; exact h
  | cons d ds ih =>
    intro cache x v h
    exact ih _ x v (getDestinationInfo_preserves analyze cache d x v h)

theorem destProcess_caches {α : Type} (research : String → α)
    (cache : List (String × α)) (d : String) (hd : d ≠ "") :
    ∃ v, (destProcess research cache d).1 = some v ∧
      mget (destProcess research cache d).2.1 (pyStrip d) = some v := by
  unfold destProcess
  simp only [if_neg hd]
  cases hc : mget cache (pyStrip d) with
  | some w => exact ⟨w, rfl, by simpa using hc⟩
  | none =>
    exact ⟨research (pyStrip d), rfl, by simpa using mget_mset_self cache (pyStrip d) _⟩

theorem getDestinationInfo_caches {α : Type} (analyze : String → α)
    (cache : List (String × α)) (d : String) :
    ∃ v, (getDestinationInfo analyze cache d).1 = v ∧
      mget (getDestinationInfo analyze cache d).2.1 d = some v := by
  unfold getDestinationInfo
  cases hc : mget cache d with
  | some w => exact ⟨w, rfl, by simpa using hc⟩
  | none =>
    exact ⟨analyze d, rfl, by simpa using mget_mset_self cache d _⟩

theorem destProcess_hit {α : Type} (research : String → α)
    (cache : List (String × α)) (d : String) (v : α) (hd : d ≠ "")
    (h : mget cache (pyStrip d) = some v) :
    destProcess research cache d = (some v, cache, false) := by
  unfold destProcess
  simp [hd, h]

theorem getDestinationInfo_hit {α : Type} (analyze : String → α)
    (cache : List (String × α)) (d : String) (v : α)
    (h : mget cache d = some v) :
    getDestinationInfo analyze cache d = (v, cache, false) := by
  unfold getDestinationInfo
  simp [h]

/-- Claim C9: once the research operation has been called on a destination,
every later call with the same key — regardless of interleaved calls on
other keys — returns exactly the value cached by the first call, leaves the
cache unchanged, and makes no further gateway call; the same holds for the
`DestinationResearchAgent` cache.  `research`/`analyze` are arbitrary, so
the cached value may well be a partial-failure placeholder. -/
theorem destination_cache_memoization {α : Type} (research analyze : String → α)
    (cache cache' : List (String × α)) (d d' : String) (hd : d ≠ "")
    (ks ks' : List String) :
    destProcess research
        (runProcessCalls research (destProcess research cache d).2.1 ks) d
      = ((destProcess research cache d).1,
         runProcessCalls research (destProcess research cache d).2.1 ks, false) ∧
    getDestinationInfo analyze
        (runInfoCalls analyze (getDestinationInfo analyze cache' d').2.1 ks') d'
      = ((getDestinationInfo analyze cache' d').1,
         runInfoCalls analyze (getDestinationInfo analyze cache' d').2.1 ks', false) := by
  constructor
  · obtain ⟨v, hv1, hv2⟩ := destProcess_caches research cache d hd
    have hpres := runProcessCalls_preserves research ks _ (pyStrip d) v hv2
    rw [hv1]
    exact destProcess_hit research _ d v hd hpres
  · obtain ⟨v, hv1, hv2⟩ := getDestinationInfo_caches analyze cache' d'
    have hpres := runInfoCalls_preserves analyze ks' _ d' v hv2
    rw [hv1]
    exact getDestinationInfo_hit analyze _ d' v hpres

/-- Witness for C9: a first `process` call on "Paris", then calls on other
keys (including a repeat and an empty string), then "Paris" again. -/
theorem destination_cache_memoization_witness :
    destProcess (fun s : String => s)
        (runProcessCalls (fun s : String => s)
          (destProcess (fun s : String => s) [] "Paris").2.1
          ["Tokyo", "Paris", ""]) "Paris"
      = ((destProcess (fun s : String => s) [] "Paris").1,
         runProcessCalls (fun s : String => s)
           (destProcess (fun s : String => s) [] "Paris").2.1
           ["Tokyo", "Paris", ""], false) :=
  (destination_cache_memoization (fun s : String => s) (fun s : String => s)
      [] [] "Paris" "Kyoto" (by decide) ["Tokyo", "Paris", ""] ["Osaka"]).1

theorem updStep_keys (acc : List (String × String) × Bool) (kv : String × String) :
    mkeys (updStep acc kv).1 = mkeys acc.1 := by
  unfold updStep
  by_cases hg : (mhas acc.1 kv.1 && kv.2 != "" && pyStrip kv.2 != "") = true
  · rw [if_pos hg]
    by_cases hne : (mget acc.1 kv.1 != some kv.2) = true
    · rw [if_pos hne]
      have hhas : mhas acc.1 kv.1 = true := by
        simp only [Bool.and_eq_true] at hg
        exact hg.1.1
      exact mkeys_mset_of_mhas _ _ _ hhas
    · rw [if_neg hne]
  · rw [if_neg hg]

theorem updStep_mono (acc : List (String × String) × Bool) (kv : String × String)
    (f v : String) (h : mget acc.1 f = some v) :
    mget (updStep acc kv).1 f = some v ∨
      ∃ u, mget (updStep acc kv).1 f = some u ∧ u ≠ "" := by
  unfold updStep
  by_cases hg : (mhas acc.1 kv.1 && kv.2 != "" && pyStrip kv.2 != "") = true
  · rw [if_pos hg]
    by_cases hne : (mget acc.1 kv.1 != some kv.2) = true
    · rw [if_pos hne]
      by_cases hf : f = kv.1
      · subst hf
        refine Or.inr ⟨kv.2, mget_mset_self _ _ _, ?_⟩
        have hv2 : (kv.2 != "") = true := by
          simp only [Bool.and_eq_true] at hg
          exact hg.1.2
        exact bne_iff_ne.mp hv2
      · exact Or.inl (by rw [mget_mset_ne _ _ hf]; exact h)
    · rw [if_neg hne]; exact Or.inl h
  · rw [if_neg hg]; exact Or.inl h

theorem updLoop_keys :
    ∀ (nds : List (String × String)) (acc : List (String × String) × Bool),
      mkeys ((nds.foldl updStep acc).1) = mkeys acc.1 := by
  intro nds
  induction nds with
  | nil => intro acc; rfl
  | cons kv nds ih =>
    intro acc
    rw [List.foldl_cons, ih (updStep acc kv), updStep_keys]

theorem updLoop_mono :
    ∀ (nds : List (String × String)) (acc : List (String × String) × Bool)
      (f v : String), mget acc.1 f = some v →
      mget ((nds.foldl updStep acc).1) f = some v ∨
        ∃ u, mget ((nds.foldl updStep acc).1) f = some u ∧ u ≠ "" := by
  intro nds
  induction nds with
  | nil => intro acc f v h; exact Or.inl h
  | cons kv nds ih =>
    intro acc f v h
    rw [List.foldl_cons]
    rcases updStep_mono acc kv f v h with h1 | ⟨u, h1, hu⟩
    · exact ih (updStep acc kv) f v h1
    · rcases ih (updStep acc kv) f u h1 with h2 | h2
      · exact Or.inr ⟨u, h2, hu⟩
      · exact Or.inr h2

theorem update_trip_details_td (st : SessionState) (nds : List (String × String)) :
    (update_trip_details st nds).1.trip_details
      = (nds.foldl updStep (st.trip_details, false)).1 := by
  simp only [update_trip_details]
  split <;> rfl

theorem updJsonStep_keys (td : List (String × String)) (kv : String × String) :
    mkeys (updJsonStep td kv) = mkeys td := by
  unfold updJsonStep
  by_cases hg : (kv.2 != "" && pyStrip kv.2 != "") = true
  · rw [if_pos hg]
    by_cases hh : mhas td (pyStrip kv.1) = true
    · rw [if_pos hh]; exact mkeys_mset_of_mhas _ _ _ hh
    · rw [if_neg hh]
  · rw [if_neg hg]

theorem updJsonStep_mono (td : List (String × String)) (kv : String × String)
    (f v : String) (h : mget td f = some v) :
    mget (updJsonStep td kv) f = some v ∨
      ∃ u, mget (updJsonStep td kv) f = some u ∧ u ≠ "" := by
  unfold updJsonStep
  by_cases hg : (kv.2 != "" && pyStrip kv.2 != "") = true
  · rw [if_pos hg]
    by_cases hh : mhas td (pyStrip kv.1) = true
    · rw [if_pos hh]
      by_cases hf : f = pyStrip kv.1
      · subst hf
        refine Or.inr ⟨pyStrip kv.2, mget_mset_self _ _ _, ?_⟩
        have hv2 : (pyStrip kv.2 != "") = true := by
          simp only [Bool.and_eq_true] at hg
          exact hg.2
        exact bne_iff_ne.mp hv2
      · exact Or.inl (by rw [mget_mset_ne _ _ hf]; exact h)
    · rw [if_neg hh]; exact Or.inl h
  · rw [if_neg hg]; exact Or.inl h

theorem updJsonLoop_keys :
    ∀ (details td : List (String × String)),
      mkeys (update_trip_details_from_json td details) = mkeys td := by
  intro details
  induction details with
  | nil => intro td; rfl
  | cons kv details ih =>
    intro td
    rw [update_trip_details_from_json, List.foldl_cons]
    rw [show ∀ l a, List.foldl updJsonStep a l = update_trip_details_from_json a l
          from fun _ _ => rfl]
    rw [ih (updJsonStep td kv), updJsonStep_keys]

theorem updJsonLoop_mono :
    ∀ (details td : List (String × String)) (f v : String),
      mget td f = some v →
      mget (update_trip_details_from_json td details) f = some v ∨
        ∃ u, mget (update_trip_details_from_json td details) f = some u ∧ u ≠ "" := by
  intro details
  induction details with
  | nil => intro td f v h; exact Or.inl h
  | cons kv details ih =>
    intro td f v h
    rw [update_trip_details_from_json, List.foldl_cons]
    rw [show ∀ l a, List.foldl updJsonStep a l = update_trip_details_from_json a l
          from fun _ _ => rfl]
    rcases updJsonStep_mono td kv f v h with h1 | ⟨u, h1, hu⟩
    · exact ih (updJsonStep td kv) f v h1
    · rcases ih (updJsonStep td kv) f u h1 with h2 | h2
      · exact Or.inr ⟨u, h2, hu⟩
      · exact Or.inr h2

theorem mergeDetails_keys (current updated : List (String × String))
    (conf : List (String × Int)) :
    mkeys (mergeDetails current updated conf) = mkeys current := by
  induction current with
  | nil => rfl
  | cons kv t ih =>
    simp only [mergeDetails, List.map_cons, mkeys] at ih ⊢
    simp [ih]

theorem mergeDetails_mono (current updated : List (String × String))
    (conf : List (String × Int)) (f v : String) (h : mget current f = some v) :
    mget (mergeDetails current updated conf) f = some v ∨
      ∃ u, mget (mergeDetails current updated conf) f = some u ∧ u ≠ "" := by
  have hl := mergeDetails_lookup current updated conf f
  cases hu : mget updated f with
  | none =>
    simp only [h, hu] at hl
    exact Or.inl hl
  | some u =>
    simp only [h, hu] at hl
    by_cases hc : u ≠ "" ∧ 50 < mgetD conf f 0
    · rw [if_pos hc] at hl
      exact Or.inr ⟨u, hl, hc.1⟩
    · rw [if_neg hc] at hl
      exact Or.inl hl

/-- Claim C10: the model-driven update paths — the Slot Extractor merge, the
state-manager `update_trip_details` loop, and Agenta.py's
`update_trip_details_from_json` — never add or remove Trip Record keys and
never blank a field: every field is either left unchanged or overwritten
with a non-empty string, so a non-empty field stays non-empty. -/
theorem automated_updates_never_blank
    (current updated : List (String × String)) (conf : List (String × Int))
    (st : SessionState) (nds details : List (String × String)) (f v : String) :
    (mkeys (mergeDetails current updated conf) = mkeys current) ∧
    (mget current f = some v →
       mget (mergeDetails current updated conf) f = some v ∨
         ∃ u, mget (mergeDetails current updated conf) f = some u ∧ u ≠ "") ∧
    (mkeys (update_trip_details st nds).1.trip_details = mkeys st.trip_details) ∧
    (mget st.trip_details f = some v →
       mget (update_trip_details st nds).1.trip_details f = some v ∨
         ∃ u, mget (update_trip_details st nds).1.trip_details f = some u ∧ u ≠ "") ∧
    (mkeys (update_trip_details_from_json current details) = mkeys current) ∧
    (mget current f = some v →
       mget (update_trip_details_from_json current details) f = some v ∨
         ∃ u, mget (update_trip_details_from_json current details) f = some u ∧
           u ≠ "") := by
  refine ⟨mergeDetails_keys current updated conf,
          fun h => mergeDetails_mono current updated conf f v h, ?_, fun h => ?_,
          updJsonLoop_keys details current,
          fun h => updJsonLoop_mono details current f v h⟩
  · rw [update_trip_details_td]
    exact updLoop_keys nds (st.trip_details, false)
  · rw [update_trip_details_td]
    exact updLoop_mono nds (st.trip_details, false) f v h

/-- Witness for C10: a low-quality extraction (empty value, high score)
leaves the non-empty Duration non-empty. -/
theorem automated_updates_never_blank_witness :
    mget (mergeDetails [("Duration", "5 days")] [("Duration", "")]
        [("Duration", 99)]) "Duration" = some "5 days" ∨
      ∃ u, mget (mergeDetails [("Duration", "5 days")] [("Duration", "")]
          [("Duration", 99)]) "Duration" = some u ∧ u ≠ "" :=
  (automated_updates_never_blank [("Duration", "5 days")] [("Duration", "")]
      [("Duration", 99)] romeState [] [] "Duration" "5 days").2.1 (by decide)

end Agenta

